import Mathlib

/-!
Shallow embedding of the tool-serving gateway in `src/server.js`
(rate limiting, authentication, tool-invocation wrapper, search-URL
construction, and the dataset snapshot-polling loop), together with
theorems settling the specification claims about it.

Conventions used throughout:
* JavaScript millisecond timestamps (`Date.now()`) are modelled as `Int`,
  so that `now - window` behaves like JS number subtraction.
* JavaScript falsy checks on strings (`!s`, `s || dflt`) are modelled by
  explicit comparison with the empty string.
* Thrown exceptions are modelled with `Except`.
-/

namespace BrightData

instance {ε α : Type} [DecidableEq ε] [DecidableEq α] : DecidableEq (Except ε α) :=
  fun x y =>
    match x, y with
    | .error a, .error b =>
      if h : a = b then .isTrue (by rw [h])
      else .isFalse (by intro hc; injection hc; exact h (by assumption))
    | .ok a, .ok b =>
      if h : a = b then .isTrue (by rw [h])
      else .isFalse (by intro hc; injection hc; exact h (by assumption))
    | .error _, .ok _ => .isFalse (by intro hc; exact Except.noConfusion hc)
    | .ok _, .error _ => .isFalse (by intro hc; exact Except.noConfusion hc)

/-! ## Rate limiting (`parse_rate_limit`, `check_rate_limit`) -/

/-- Decimal value of a digit list, as computed by JS `parseInt` on an
all-digit string (`server.js` line 48). -/
def digitsToNat (ds : List Char) : Nat :=
  ds.foldl (fun acc c => acc * 10 + (c.toNat - '0'.toNat)) 0

/-- The unit multiplier of `parse_rate_limit` (`server.js` line 45):
`h ↦ 3600`, `m ↦ 60`, otherwise (`s`) `1`. -/
def unit_multiplier (u : Char) : Nat :=
  if u = 'h' then 3600 else if u = 'm' then 60 else 1

/-- The anchored regex `^(\d+)\/(\d+)([mhs])$` of `server.js` line 40,
returning the two digit groups and the unit character on a match.
Greedy `\d+` followed by a non-digit is exactly `takeWhile isDigit`. -/
def rl_match (cs : List Char) : Option (List Char × List Char × Char) :=
  let d1 := cs.takeWhile Char.isDigit
  if d1 = [] then none
  else
    match cs.dropWhile Char.isDigit with
    | [] => none
    | c1 :: r2 =>
      if c1 = '/' then
        let d2 := r2.takeWhile Char.isDigit
        if d2 = [] then none
        else
          match r2.dropWhile Char.isDigit with
          | [u] => if u = 'm' ∨ u = 'h' ∨ u = 's' then some (d1, d2, u) else none
          | _ => none
      else none

/-- `RateLimitConfig` (spec §3): parsed from the `RATE_LIMIT` string.
`window` is in milliseconds. -/
structure RateLimitConfig where
  limit : Nat
  window : Int
  display : String
deriving Repr, DecidableEq

/-- `parse_rate_limit` (`server.js` lines 36-52). `none` (env var unset)
and the empty string are JS-falsy and yield no config; a string matching
`^(\d+)\/(\d+)([mhs])$` yields the config; anything else throws. -/
def parse_rate_limit (s : Option String) : Except String (Option RateLimitConfig) :=
  match s with
  | none => .ok none
  | some str =>
    if str = "" then .ok none
    else
      match rl_match str.toList with
      | some (d1, d2, u) =>
        .ok (some { limit := digitsToNat d1,
                    window := (digitsToNat d2 * unit_multiplier u * 1000 : Nat),
                    display := str })
      | none => .error "Invalid RATE_LIMIT format. Use: 100/1h or 50/30m"

/-- `check_rate_limit` (`server.js` lines 64-78), acting on the
`debug_stats.call_timestamps` list.  Returns the outcome together with
the list as left by the call: with no config the list is untouched; with
a config it is first pruned to timestamps strictly newer than
`now - window`, then either the call throws (list stays pruned) or `now`
is appended. -/
def check_rate_limit (cfg : Option RateLimitConfig) (now : Int) (st : List Int) :
    Except String Unit × List Int :=
  match cfg with
  | none => (.ok (), st)
  | some c =>
    let pruned := st.filter (fun ts => now - c.window < ts)
    if c.limit ≤ pruned.length then
      (.error ("Rate limit exceeded: " ++ c.display), pruned)
    else
      (.ok (), pruned ++ [now])

/-- A sequence of gated calls at the given instants, threading the
timestamp list through `check_rate_limit`; records whether each call
succeeded, and the final list. -/
def run_calls (cfg : Option RateLimitConfig) : List Int → List Int → List Bool × List Int
  | st, [] => ([], st)
  | st, t :: ts =>
    let r := check_rate_limit cfg t st
    let rest := run_calls cfg r.2 ts
    ((match r.1 with | .ok _ => true | .error _ => false) :: rest.1, rest.2)

/-- The timestamp list after a sequence of gated calls, starting from the
process-initial empty list (`call_timestamps: []`, `server.js` line 170). -/
def rate_state_after (cfg : Option RateLimitConfig) (ts : List Int) : List Int :=
  (run_calls cfg [] ts).2

lemma run_calls_append (cfg : Option RateLimitConfig) (ts us : List Int) :
    ∀ st : List Int, run_calls cfg st (ts ++ us) =
      ((run_calls cfg st ts).1 ++ (run_calls cfg (run_calls cfg st ts).2 us).1,
       (run_calls cfg (run_calls cfg st ts).2 us).2) := by
  induction ts with
  | nil => intro st; simp [run_calls]
  | cons t ts ih => intro st; simp [run_calls, ih]

lemma run_calls_all_ok (c : RateLimitConfig) (ts : List Int) :
    ∀ st : List Int,
      (∀ x ∈ st ++ ts, ∀ y ∈ ts, y - c.window < x) →
      st.length + ts.length ≤ c.limit →
      run_calls (some c) st ts = (List.replicate ts.length true, st ++ ts) := by
  induction ts with
  | nil => intro st _ _; simp [run_calls]
  | cons t ts ih =>
    intro st h hlen
    simp only [List.length_cons] at hlen
    have hst : ∀ x ∈ st, t - c.window < x := by
      intro x hx
      exact h x (List.mem_append_left _ hx) t (List.mem_cons_self t ts)
    have hfilter : st.filter (fun ts => t - c.window < ts) = st :=
      List.filter_eq_self.mpr (fun x hx => by simpa using hst x hx)
    have hlt : ¬ c.limit ≤ st.length := by omega
    have hrec := ih (st ++ [t])
      (by
        intro x hx y hy
        have hx' : x ∈ st ++ t :: ts := by
          rcases List.mem_append.mp hx with h1 | h1
          · rcases List.mem_append.mp h1 with h2 | h2
            · exact List.mem_append_left _ h2
            · simp at h2
              exact List.mem_append_right _ (by simp [h2])
          · exact List.mem_append_right _ (List.mem_cons_of_mem _ h1)
        exact h x hx' y (List.mem_cons_of_mem _ hy))
      (by simp only [List.length_append, List.length_singleton]; omega)
    simp only [run_calls, check_rate_limit, hfilter, if_neg hlt, hrec]
    simp [List.replicate_succ, List.append_assoc]

/-- **C3.** Rate-limit check semantics (`check_rate_limit`,
`server.js` lines 64-78):
(i) with no config every call passes and the state is untouched;
(ii) failure case: after pruning to timestamps strictly newer than
`now - window`, if at least `limit` remain the call throws the
"Rate limit exceeded" error carrying the configured display string and
appends nothing;
(iii) success case: otherwise the current instant is appended;
(iv) after `limit` accepted calls all lying within one window of length
`window`, the next call in that window fails;
(v) a call issued once the window has elapsed since the earliest
retained timestamp succeeds. -/
theorem check_rate_limit_spec (c : RateLimitConfig) :
    (∀ now st, check_rate_limit none now st = (.ok (), st)) ∧
    (∀ now st, c.limit ≤ (st.filter (fun ts => now - c.window < ts)).length →
      check_rate_limit (some c) now st =
        (.error ("Rate limit exceeded: " ++ c.display),
         st.filter (fun ts => now - c.window < ts))) ∧
    (∀ now st, (st.filter (fun ts => now - c.window < ts)).length < c.limit →
      check_rate_limit (some c) now st =
        (.ok (), st.filter (fun ts => now - c.window < ts) ++ [now])) ∧
    (∀ ts : List Int, ∀ tlast : Int, ts.length = c.limit →
      (∀ x ∈ ts ++ [tlast], ∀ y ∈ ts ++ [tlast], y - c.window < x) →
      run_calls (some c) [] (ts ++ [tlast]) =
        (List.replicate c.limit true ++ [false], ts)) ∧
    (∀ st : List Int, ∀ m now : Int, m ∈ st → st.length ≤ c.limit →
      m + c.window ≤ now →
      (check_rate_limit (some c) now st).1 = .ok ()) := by
  refine ⟨fun now st => rfl, ?_, ?_, ?_, ?_⟩
  · intro now st h
    simp only [check_rate_limit, if_pos h]
  · intro now st h
    have h' : ¬ c.limit ≤ (st.filter (fun ts => now - c.window < ts)).length := by omega
    simp only [check_rate_limit, if_neg h']
  · intro ts tlast hlen h
    have hrun1 : run_calls (some c) [] ts = (List.replicate ts.length true, ts) := by
      have hok := run_calls_all_ok c ts []
        (fun x hx y hy =>
          h x (List.mem_append_left _ (by simpa using hx))
            y (List.mem_append_left _ hy))
        (by simp; omega)
      simpa using hok
    have hfilter : ts.filter (fun x => tlast - c.window < x) = ts :=
      List.filter_eq_self.mpr (fun x hx => by
        simpa using h x (List.mem_append_left _ hx) tlast (List.mem_append_right _ (by simp)))
    have hstep : run_calls (some c) ts [tlast] = ([false], ts) := by
      have hle : c.limit ≤ ts.length := le_of_eq hlen.symm
      simp only [run_calls, check_rate_limit, hfilter, if_pos hle]
    rw [run_calls_append, hrun1, hstep, hlen]
  · intro st m now hm hlen hwin
    have hmf : (decide (now - c.window < m)) = false := by
      simp only [decide_eq_false_iff_not]
      omega
    have hlt : (st.filter (fun ts => now - c.window < ts)).length < st.length :=
      List.length_filter_lt_length_iff_exists.mpr ⟨m, hm, by simp [hmf]⟩
    have h' : ¬ c.limit ≤ (st.filter (fun ts => now - c.window < ts)).length := by omega
    simp only [check_rate_limit, if_neg h']

/-- Witness for `check_rate_limit_spec`: config `2/10s`-style
(limit 2, window 10ms), calls at instants 0, 1, 5. -/
theorem check_rate_limit_spec_witness :
    run_calls (some ⟨2, 10, "2/10s"⟩) [] ([0, 1] ++ [5]) =
      (List.replicate 2 true ++ [false], [0, 1]) ∧
    (check_rate_limit (some ⟨2, 10, "2/10s"⟩) 11 [0, 1]).1 = .ok () ∧
    check_rate_limit none 3 [0] = (.ok (), [0]) :=
  ⟨(check_rate_limit_spec ⟨2, 10, "2/10s"⟩).2.2.2.1 [0, 1] 5 (by decide) (by decide),
   (check_rate_limit_spec ⟨2, 10, "2/10s"⟩).2.2.2.2 [0, 1] 0 11 (by decide) (by decide)
     (by decide),
   (check_rate_limit_spec ⟨2, 10, "2/10s"⟩).1 3 [0]⟩

lemma check_rate_limit_len (c : RateLimitConfig) (now : Int) (st : List Int)
    (h : st.length ≤ c.limit) :
    (check_rate_limit (some c) now st).2.length ≤ c.limit := by
  simp only [check_rate_limit]
  split
  · exact le_trans (List.length_filter_le _ _) h
  · next h' =>
    simp only [List.length_append, List.length_singleton]
    omega

lemma rate_state_after_len (c : RateLimitConfig) (ts : List Int) :
    (rate_state_after (some c) ts).length ≤ c.limit := by
  unfold rate_state_after
  suffices hgen : ∀ st : List Int, st.length ≤ c.limit →
      (run_calls (some c) st ts).2.length ≤ c.limit by
    exact hgen [] (by simp)
  induction ts with
  | nil => intro st h; simpa [run_calls] using h
  | cons t ts ih =>
    intro st h
    simp only [run_calls]
    exact ih _ (check_rate_limit_len c t st h)

/-- **C8.** Rate-limit state invariant: immediately after any gated call
(at instant `now`, following an arbitrary earlier call history), every
recorded timestamp is strictly newer than `now - window`, and — provided
the configured window is positive, as the spec's data model requires —
the number of recorded timestamps never exceeds the configured limit. -/
theorem rate_limit_state_invariant (c : RateLimitConfig) (hW : 0 < c.window)
    (ts : List Int) (now : Int) :
    (∀ x ∈ rate_state_after (some c) (ts ++ [now]), now - c.window < x) ∧
    (rate_state_after (some c) (ts ++ [now])).length ≤ c.limit := by
  have hsplit : rate_state_after (some c) (ts ++ [now]) =
      (check_rate_limit (some c) now (rate_state_after (some c) ts)).2 := by
    unfold rate_state_after
    rw [run_calls_append]
    simp [run_calls]
  constructor
  · intro x hx
    rw [hsplit] at hx
    revert hx
    simp only [check_rate_limit]
    split
    · intro hx
      simpa using (List.mem_filter.mp hx).2
    · intro hx
      rcases List.mem_append.mp hx with h1 | h1
      · simpa using (List.mem_filter.mp h1).2
      · simp only [List.mem_singleton] at h1
        omega
  · rw [hsplit]
    exact check_rate_limit_len c now _ (rate_state_after_len c ts)

/-- Witness for `rate_limit_state_invariant`: limit 2, window 10ms,
history [1, 3], final call at instant 5. -/
theorem rate_limit_state_invariant_witness :
    0 < (5 : Int) - (10 : Int) + 10 ∧
    (∀ x ∈ rate_state_after (some ⟨2, 10, "2/10s"⟩) ([1, 3] ++ [5]),
      (5 : Int) - 10 < x) ∧
    (rate_state_after (some ⟨2, 10, "2/10s"⟩) ([1, 3] ++ [5])).length ≤ 2 := by
  refine ⟨by decide, ?_⟩
  exact rate_limit_state_invariant ⟨2, 10, "2/10s"⟩ (by decide) [1, 3] 5

/-! ## `parse_rate_limit` structure (claim C7) -/

lemma takeWhile_append_cons (p : Char → Bool) (xs : List Char) (y : Char)
    (ys : List Char) (hx : ∀ x ∈ xs, p x = true) (hy : p y = false) :
    (xs ++ y :: ys).takeWhile p = xs ∧ (xs ++ y :: ys).dropWhile p = y :: ys := by
  induction xs with
  | nil => simp [List.takeWhile, List.dropWhile, hy]
  | cons x xs ih =>
    have hpx : p x = true := hx x (by simp)
    have ih' := ih (fun z hz => hx z (by simp [hz]))
    simp [List.takeWhile, List.dropWhile, hpx, ih'.1, ih'.2]

/-- Well-formedness of a rate-limit spec string: two nonempty digit
groups separated by `/`, followed by a single unit character in
`{m, h, s}`. -/
def rl_wellformed (cs : List Char) (d1 d2 : List Char) (u : Char) : Prop :=
  cs = d1 ++ '/' :: (d2 ++ [u]) ∧ d1 ≠ [] ∧ d2 ≠ [] ∧
  (∀ c ∈ d1, c.isDigit = true) ∧ (∀ c ∈ d2, c.isDigit = true) ∧
  (u = 'm' ∨ u = 'h' ∨ u = 's')

lemma rl_match_of_wellformed (cs : List Char) (d1 d2 : List Char) (u : Char)
    (h : rl_wellformed cs d1 d2 u) : rl_match cs = some (d1, d2, u) := by
  obtain ⟨hcs, hd1, hd2, hdig1, hdig2, hu⟩ := h
  have hslash : Char.isDigit '/' = false := by decide
  have hunit : u.isDigit = false := by
    rcases hu with h | h | h <;> simp [h]
  have h1 := takeWhile_append_cons Char.isDigit d1 '/' (d2 ++ [u]) hdig1 hslash
  have h2 := takeWhile_append_cons Char.isDigit d2 u [] hdig2 hunit
  simp only [List.append_nil] at h2
  rw [rl_match]
  simp only [hcs, h1.1, h1.2, if_neg hd1, if_pos rfl, h2.1, h2.2, if_neg hd2]
  simp [hu]

lemma rl_match_wellformed (cs : List Char) (d1 d2 : List Char) (u : Char)
    (h : rl_match cs = some (d1, d2, u)) : rl_wellformed cs d1 d2 u := by
  rw [rl_match] at h
  simp only [] at h
  split at h
  · exact absurd h (by simp)
  next hd1 =>
  split at h
  · exact absurd h (by simp)
  next c1 r2 hr1 =>
  split at h
  swap
  · exact absurd h (by simp)
  next hc1 =>
  subst hc1
  split at h
  · exact absurd h (by simp)
  next hd2 =>
  split at h
  swap
  · exact absurd h (by simp)
  next u' hr2 =>
  split at h
  swap
  · exact absurd h (by simp)
  next hu =>
  obtain ⟨e1, e2, e3⟩ : cs.takeWhile Char.isDigit = d1 ∧
      r2.takeWhile Char.isDigit = d2 ∧ u' = u := by
    simpa using h
  subst e3
  refine ⟨?_, e1 ▸ hd1, e2 ▸ hd2, ?_, ?_, hu⟩
  · have hcs1 : cs = cs.takeWhile Char.isDigit ++ '/' :: r2 := by
      conv_lhs => rw [← List.takeWhile_append_dropWhile Char.isDigit cs]
      rw [hr1]
    have hcs2 : r2 = r2.takeWhile Char.isDigit ++ [u'] := by
      conv_lhs => rw [← List.takeWhile_append_dropWhile Char.isDigit r2]
      rw [hr2]
    rw [hcs1, hcs2, e1, e2]
  · intro c hc
    exact List.mem_takeWhile_imp (e1 ▸ hc)
  · intro c hc
    exact List.mem_takeWhile_imp (e2 ▸ hc)

/-- **C7.** `parse_rate_limit` (`server.js` lines 36-52): an absent spec
yields no config; a string of the exact form `<digits>/<digits><unit>`
with unit in `{s, m, h}` yields a config whose `limit` is the first
number, whose `window` is the duration times 3600/60/1 (per the unit)
times 1000 milliseconds, and whose `display` is the original string;
every other non-empty string throws the startup error. -/
theorem parse_rate_limit_spec :
    parse_rate_limit none = .ok none ∧
    (∀ d1 d2 : List Char, ∀ u : Char, ∀ s : String,
      rl_wellformed s.toList d1 d2 u →
      parse_rate_limit (some s) =
        .ok (some { limit := digitsToNat d1,
                    window := (digitsToNat d2 * unit_multiplier u * 1000 : Nat),
                    display := s })) ∧
    (∀ s : String, s ≠ "" → (∀ d1 d2 u, ¬ rl_wellformed s.toList d1 d2 u) →
      parse_rate_limit (some s) =
        .error "Invalid RATE_LIMIT format. Use: 100/1h or 50/30m") := by
  refine ⟨rfl, ?_, ?_⟩
  · intro d1 d2 u s h
    have hs : s ≠ "" := by
      intro he
      subst he
      obtain ⟨hcs, hd1, _, _, _, _⟩ := h
      simp only [String.toList] at hcs
      cases d1 with
      | nil => exact hd1 rfl
      | cons a as => simp at hcs
    rw [parse_rate_limit, if_neg hs, rl_match_of_wellformed s.toList d1 d2 u h]
  · intro s hs h
    rw [parse_rate_limit, if_neg hs]
    rcases hm : rl_match s.toList with _ | ⟨⟨d1, d2, u⟩⟩
    · rfl
    · exact absurd (rl_match_wellformed s.toList d1 d2 u hm) (h d1 d2 u)

/-- Witness for `parse_rate_limit_spec`: `"100/1h"` parses to limit 100,
window 3 600 000 ms; `"bogus"` throws. -/
theorem parse_rate_limit_spec_witness :
    parse_rate_limit (some "100/1h") =
      .ok (some { limit := 100, window := 3600000, display := "100/1h" }) ∧
    parse_rate_limit (some "bogus") =
      .error "Invalid RATE_LIMIT format. Use: 100/1h or 50/30m" := by
  constructor
  · have h := parse_rate_limit_spec.2.1 ['1', '0', '0'] ['1'] 'h' "100/1h"
      (by refine ⟨by decide, by decide, by decide, by decide, by decide, by decide⟩)
    simpa [digitsToNat, unit_multiplier] using h
  · refine parse_rate_limit_spec.2.2 "bogus" (by decide) ?_
    intro d1 d2 u hwf
    obtain ⟨hcs, hd1, _, hdig1, _, _⟩ := hwf
    have : '/' ∈ "bogus".toList := by
      rw [hcs]
      exact List.mem_append_right _ (by simp)
    simp at this

/-! ## Session authentication (`extractTokenFromUrl`, `extractUrlParams`,
`authenticate`, `server.js` lines 9-29 and 124-167) -/

/-- The character class `[a-zA-Z0-9_-]` used both by the URL-parameter
regexes (lines 11, 19-26) and the token-format check (line 142). -/
def isTokenChar (c : Char) : Bool := c.isAlphanum || c = '_' || c = '-'

/-- One attempt of the unanchored regex `key([a-zA-Z0-9_-]+)` at the head
of `s`: `key` must be literally present, followed by at least one
character of the class; the capture is the maximal run of class
characters. -/
def matchParamAt (key : List Char) (s : List Char) : Option (List Char) :=
  if key.isPrefixOf s then
    let t := (s.drop key.length).takeWhile isTokenChar
    if t = [] then none else some t
  else none

/-- Left-to-right scan of JS `String.prototype.match` with an unanchored
regex: the first position where the whole pattern matches wins. -/
def scanParamAux (key : List Char) : List Char → Option (List Char)
  | [] => none
  | c :: cs =>
    match matchParamAt key (c :: cs) with
    | some t => some t
    | none => scanParamAux key cs

/-- `url.match(/key=([a-zA-Z0-9_-]+)/)`, returning the captured group. -/
def scanFor (key : String) (url : String) : Option String :=
  (scanParamAux key.toList url.toList).map String.mk

/-- `extractTokenFromUrl` (`server.js` lines 9-13). -/
def extractTokenFromUrl (url : String) : Option String := scanFor "token=" url

/-- The three URL parameters recognised by `extractUrlParams`
(`server.js` lines 15-29). -/
structure UrlParams where
  token : Option String
  unlocker : Option String
  browser : Option String
deriving Repr, DecidableEq

/-- `extractUrlParams` (`server.js` lines 15-29). -/
def extractUrlParams (url : String) : UrlParams :=
  { token := scanFor "token=" url,
    unlocker := scanFor "unlocker=" url,
    browser := scanFor "browser=" url }

/-- An inbound request as seen by `authenticate`: its URL and its
`authorization` header. -/
structure Request where
  url : String
  authorization : Option String
deriving Repr, DecidableEq

/-- The `Session` value returned by `authenticate`
(`server.js` lines 162-166). -/
structure Session where
  apiToken : String
  unlockerZone : String
  browserZone : String
deriving Repr, DecidableEq

/-- JS `a || b` on an optional string: `b` when `a` is absent or empty
(falsy), else `a`. -/
def jsOrElse (a : Option String) (b : String) : String :=
  match a with
  | some s => if s = "" then b else s
  | none => b

/-- `authHeader.startsWith('Bearer ') ? authHeader.substring(7) : null`
(`server.js` lines 129-130). -/
def bearerToken (h : String) : Option String :=
  match h.toList with
  | 'B' :: 'e' :: 'a' :: 'r' :: 'e' :: 'r' :: ' ' :: rest => some (String.mk rest)
  | _ => none

/-- Outcome of `authenticate`: the two 401 responses or a session. -/
inductive AuthResult where
  | missing
  | badFormat
  | ok (s : Session)
deriving Repr, DecidableEq

/-- `authenticate` (`server.js` lines 124-167).  The env parameters model
`process.env.WEB_UNLOCKER_ZONE` and `process.env.BROWSER_ZONE`.  The
best-effort zone-provisioning call is external I/O whose failure is
swallowed (lines 154-160) and does not affect the result. -/
def authenticate (req : Request) (env_unlocker env_browser : Option String) : AuthResult :=
  let params := extractUrlParams req.url
  let clientApiToken : Option String :=
    match req.authorization with
    | some h =>
      match bearerToken h with
      | some t => some t
      | none => params.token
    | none => params.token
  match clientApiToken with
  | none => .missing
  | some t =>
    if t = "" then .missing
    else if t.toList.all isTokenChar then
      .ok { apiToken := t,
            unlockerZone := jsOrElse params.unlocker (jsOrElse env_unlocker "mcp_unlocker"),
            browserZone := jsOrElse params.browser (jsOrElse env_browser "mcp_browser") }
    else .badFormat

lemma bearerToken_append (t : String) : bearerToken ("Bearer " ++ t) = some t := rfl

lemma matchParamAt_token_chars (key s t : List Char)
    (h : matchParamAt key s = some t) :
    t ≠ [] ∧ ∀ c ∈ t, isTokenChar c = true := by
  rw [matchParamAt] at h
  split at h
  · simp only [] at h
    split at h
    · exact absurd h (by simp)
    · next hne =>
      obtain rfl : (s.drop key.length).takeWhile isTokenChar = t := by simpa using h
      exact ⟨hne, fun c hc => List.mem_takeWhile_imp hc⟩
  · exact absurd h (by simp)

lemma scanParamAux_token_chars (key : List Char) :
    ∀ cs t : List Char, scanParamAux key cs = some t →
      t ≠ [] ∧ ∀ c ∈ t, isTokenChar c = true := by
  intro cs
  induction cs with
  | nil => intro t h; simp [scanParamAux] at h
  | cons c cs ih =>
    intro t h
    rw [scanParamAux] at h
    split at h
    · next tm hm =>
      obtain rfl : tm = t := by simpa using h
      exact matchParamAt_token_chars key (c :: cs) tm hm
    · exact ih t h

lemma extractTokenFromUrl_token_chars (url : String) (tok : String)
    (h : extractTokenFromUrl url = some tok) :
    tok ≠ "" ∧ tok.toList.all isTokenChar = true := by
  rw [extractTokenFromUrl, scanFor] at h
  rcases hs : scanParamAux "token=".toList url.toList with _ | ⟨cs⟩ <;> rw [hs] at h
  · exact absurd h (by simp)
  · obtain rfl : String.mk cs = tok := by simpa using h
    obtain ⟨hne, hall⟩ := scanParamAux_token_chars "token=".toList url.toList cs hs
    constructor
    · intro he
      exact hne (congrArg String.data he)
    · exact List.all_eq_true.mpr (fun c hc => hall c hc)

/-- **C4 counterexample.** A URL-embedded token containing `;` does not
fail format validation: the extraction regex truncates it at the first
out-of-class character, and authentication succeeds with the truncated
prefix `"abc"` instead of returning the 401 "Invalid API Token Format". -/
theorem authenticate_url_invalid_char_cex :
    authenticate { url := "http://host/mcp?token=abc;def", authorization := none }
        none none =
      .ok { apiToken := "abc", unlockerZone := "mcp_unlocker",
            browserZone := "mcp_browser" } ∧
    authenticate { url := "http://host/mcp?token=abc;def", authorization := none }
        none none ≠ .badFormat := by
  constructor <;> decide

/-- **C4 amended.** Token validation: a non-empty bearer token whose
characters all lie in `[a-zA-Z0-9_-]` passes and becomes the session
credential; a bearer token containing any other character fails with the
401 "Invalid API Token Format"; an absent credential (no bearer header,
no extractable URL token) fails with the 401 missing-token error; and a
URL-embedded token is extracted as the maximal run of in-class
characters after `token=`, so whenever extraction yields a token it is
non-empty, lies entirely in the class, and authentication succeeds with
it — a URL token never triggers the format error. -/
theorem authenticate_token_validation (t url : String) (envU envB : Option String) :
    (t ≠ "" → t.toList.all isTokenChar = true →
      ∃ s : Session,
        authenticate { url := url, authorization := some ("Bearer " ++ t) } envU envB =
          .ok s ∧ s.apiToken = t) ∧
    (t.toList.all isTokenChar = false →
      authenticate { url := url, authorization := some ("Bearer " ++ t) } envU envB =
        .badFormat) ∧
    (extractTokenFromUrl url = none →
      authenticate { url := url, authorization := none } envU envB = .missing) ∧
    (∀ tok, extractTokenFromUrl url = some tok →
      tok ≠ "" ∧ tok.toList.all isTokenChar = true ∧
      ∃ s : Session,
        authenticate { url := url, authorization := none } envU envB = .ok s ∧
          s.apiToken = tok) := by
  refine ⟨?_, ?_, ?_, ?_⟩
  · intro ht hall
    refine ⟨{ apiToken := t,
              unlockerZone := jsOrElse (extractUrlParams url).unlocker
                (jsOrElse envU "mcp_unlocker"),
              browserZone := jsOrElse (extractUrlParams url).browser
                (jsOrElse envB "mcp_browser") }, ?_, rfl⟩
    simp [authenticate, bearerToken_append, ht, hall]
    exact List.all_eq_true.mp hall
  · intro hall
    have ht : t ≠ "" := by
      intro he
      subst he
      simp at hall
    simp only [authenticate, bearerToken_append, if_neg ht, hall]
    simp
  · intro h
    simp only [authenticate, extractUrlParams]
    rw [show scanFor "token=" url = extractTokenFromUrl url from rfl, h]
  · intro tok h
    obtain ⟨hne, hall⟩ := extractTokenFromUrl_token_chars url tok h
    refine ⟨hne, hall,
      { apiToken := tok,
        unlockerZone := jsOrElse (extractUrlParams url).unlocker
          (jsOrElse envU "mcp_unlocker"),
        browserZone := jsOrElse (extractUrlParams url).browser
          (jsOrElse envB "mcp_browser") }, ?_, rfl⟩
    simp only [authenticate, extractUrlParams]
    rw [show scanFor "token=" url = extractTokenFromUrl url from rfl, h]
    simp [hne, hall, extractUrlParams]
    exact List.all_eq_true.mp hall

/-- Witness for `authenticate_token_validation` at concrete inputs:
valid bearer token `"tok_1"`, invalid bearer token `"bad tok"`, URL with
no token parameter, URL token `"abc;def"` truncated to `"abc"`. -/
theorem authenticate_token_validation_witness :
    (∃ s : Session,
      authenticate { url := "/mcp", authorization := some ("Bearer " ++ "tok_1") }
          none none = .ok s ∧ s.apiToken = "tok_1") ∧
    authenticate { url := "/mcp", authorization := some ("Bearer " ++ "bad tok") }
        none none = .badFormat ∧
    authenticate { url := "/mcp", authorization := none } none none = .missing ∧
    ("abc" ≠ "" ∧ "abc".toList.all isTokenChar = true ∧
      ∃ s : Session,
        authenticate { url := "http://host/mcp?token=abc;def", authorization := none }
            none none = .ok s ∧ s.apiToken = "abc") :=
  ⟨(authenticate_token_validation "tok_1" "/mcp" none none).1 (by decide) (by decide),
   (authenticate_token_validation "bad tok" "/mcp" none none).2.1 (by decide),
   (authenticate_token_validation "" "/mcp" none none).2.2.1 (by decide),
   (authenticate_token_validation "" "http://host/mcp?token=abc;def" none none).2.2.2
     "abc" (by decide)⟩

/-! ## The tool-invocation wrapper `tool_fn` (`server.js` lines 864-901) -/

/-- The per-call context resolved by `tool_fn` (lines 872-881). -/
structure ResolvedCtx where
  apiToken : String
  unlockerZone : String
  browserZone : String
deriving Repr, DecidableEq

/-- Context resolution of `tool_fn` (lines 872-881): the credential must
come from the session (`ctx.session?.apiToken`, JS-falsy check) — there
is no fallback for it — while the zones fall back to the environment
defaults (`WEB_UNLOCKER_ZONE` / `BROWSER_ZONE`, modelled by `envU` /
`envB`) and then to the hardcoded `"mcp_unlocker"` / `"mcp_browser"`. -/
def resolve_tool_ctx (session : Option Session) (envU envB : Option String) :
    Except String ResolvedCtx :=
  match session with
  | none => .error "No API token available in session"
  | some s =>
    if s.apiToken = "" then .error "No API token available in session"
    else
      .ok { apiToken := s.apiToken,
            unlockerZone := jsOrElse (some s.unlockerZone) (jsOrElse envU "mcp_unlocker"),
            browserZone := jsOrElse (some s.browserZone) (jsOrElse envB "mcp_browser") }

/-- A failure raised by a tool body: either an axios error carrying an
upstream HTTP response (`e.response` with status, statusText and body)
or an error without a response. -/
inductive ToolError where
  | http (status : Nat) (statusText : String) (body : String)
  | plain (msg : String)
deriving Repr, DecidableEq

/-- The catch block of `tool_fn` (lines 884-895): with a response whose
body has a truthy `length`, a fresh error `"HTTP <status>: <body>"` is
thrown; otherwise (no response, or body without positive length) the
original error is re-thrown unchanged. -/
def normalize_error (e : ToolError) : ToolError :=
  match e with
  | .http status _ body =>
    if body.length ≠ 0 then .plain ("HTTP " ++ toString status ++ ": " ++ body)
    else e
  | .plain _ => e

/-- The wrapper returned by `tool_fn` (lines 864-901), restricted to the
per-call data flow: resolve the session context (throwing before the
tool body when no credential is available), run the body, and pass
failures through the catch-block normalization.  Rate limiting and the
usage counters are modelled separately (`check_rate_limit`,
`record_tool_call`). -/
def tool_fn_run (session : Option Session) (envU envB : Option String)
    (fn : ResolvedCtx → Except ToolError String) : Except ToolError String :=
  match resolve_tool_ctx session envU envB with
  | .error m => .error (.plain m)
  | .ok ctx =>
    match fn ctx with
    | .ok r => .ok r
    | .error e => .error (normalize_error e)

/-- The `debug_stats` counters touched by `tool_fn` (lines 867-869). -/
structure UsageStats where
  tool_calls : String → Nat
  session_calls : Nat

/-- `debug_stats` at process start: `{tool_calls: {}, session_calls: 0}`
(`server.js` line 170). -/
def initial_stats : UsageStats := ⟨fun _ => 0, 0⟩

/-- The statistics update of `tool_fn` (lines 867-869), performed on
every wrapped invocation after the rate-limit check:
`tool_calls[name] = (tool_calls[name]||0) + 1; session_calls++`. -/
def record_tool_call (st : UsageStats) (name : String) : UsageStats :=
  { tool_calls := fun n => if n = name then st.tool_calls name + 1 else st.tool_calls n,
    session_calls := st.session_calls + 1 }

/-- The counters after a sequence of wrapped invocations, by tool name. -/
def run_tool_calls (names : List String) : UsageStats :=
  names.foldl record_tool_call initial_stats

/-- **C5 counterexample.** A failure carrying an upstream HTTP response
with an empty body is NOT normalized: `message?.length` is falsy, so the
original error object is re-thrown instead of an `"HTTP 500: …"` error. -/
theorem tool_fn_empty_body_cex :
    tool_fn_run (some { apiToken := "tok", unlockerZone := "u", browserZone := "b" })
        none none (fun _ => .error (.http 500 "Internal Server Error" "")) =
      .error (.http 500 "Internal Server Error" "") ∧
    tool_fn_run (some { apiToken := "tok", unlockerZone := "u", browserZone := "b" })
        none none (fun _ => .error (.http 500 "Internal Server Error" "")) ≠
      .error (.plain "HTTP 500: ") := by
  constructor <;> decide

lemma string_length_ne_zero (s : String) (h : s ≠ "") : s.length ≠ 0 := by
  intro hlen
  apply h
  have : s.data = [] := List.length_eq_zero.mp hlen
  exact congrArg String.mk this

/-- **C5 amended.** When a wrapped tool body fails: if the failure
carries an upstream HTTP response with a non-empty body, the wrapper
throws a single normalized error `"HTTP <status>: <body>"`; if the body
is empty, or the failure carries no HTTP response at all, the original
error is re-raised unchanged. -/
theorem tool_fn_error_normalization (s : Session) (envU envB : Option String)
    (fn : ResolvedCtx → Except ToolError String) (e : ToolError)
    (hs : s.apiToken ≠ "") (hf : ∀ ctx, fn ctx = .error e) :
    tool_fn_run (some s) envU envB fn = .error (normalize_error e) ∧
    (∀ status statusText body, body ≠ "" →
      normalize_error (.http status statusText body) =
        .plain ("HTTP " ++ toString status ++ ": " ++ body)) ∧
    (∀ status statusText,
      normalize_error (.http status statusText "") = .http status statusText "") ∧
    (∀ m, normalize_error (.plain m) = .plain m) := by
  refine ⟨?_, ?_, fun status statusText => rfl, fun m => rfl⟩
  · have hres : resolve_tool_ctx (some s) envU envB =
        .ok { apiToken := s.apiToken,
              unlockerZone := jsOrElse (some s.unlockerZone) (jsOrElse envU "mcp_unlocker"),
              browserZone := jsOrElse (some s.browserZone) (jsOrElse envB "mcp_browser") } := by
      rw [resolve_tool_ctx, if_neg hs]
    simp only [tool_fn_run, hres, hf]
  · intro status statusText body hb
    rw [normalize_error]
    rw [if_pos (string_length_ne_zero body hb)]

/-- Witness for `tool_fn_error_normalization`: a body failing with
`HTTP 404`, body `"not found"`, is normalized to a single error message. -/
theorem tool_fn_error_normalization_witness :
    tool_fn_run (some { apiToken := "tok", unlockerZone := "u", browserZone := "b" })
        none none (fun _ => .error (.http 404 "Not Found" "not found")) =
      .error (normalize_error (.http 404 "Not Found" "not found")) ∧
    normalize_error (.http 404 "Not Found" "not found") =
      .plain ("HTTP " ++ toString 404 ++ ": " ++ "not found") := by
  have h := tool_fn_error_normalization
    { apiToken := "tok", unlockerZone := "u", browserZone := "b" } none none
    (fun _ => .error (.http 404 "Not Found" "not found"))
    (.http 404 "Not Found" "not found") (by decide) (fun _ => rfl)
  exact ⟨h.1, h.2.1 404 "Not Found" "not found" (by decide)⟩

/-- **C9.** Usage statistics: every wrapped invocation increments the
invoked tool's counter and the session total by exactly one, leaving
other tools' counters unchanged; in particular three `scrape_as_html`
calls and one `search` call yield counters 3 and 1 and a session total
of 4. -/
theorem usage_stats_spec :
    (∀ st name, (record_tool_call st name).tool_calls name = st.tool_calls name + 1 ∧
      (record_tool_call st name).session_calls = st.session_calls + 1 ∧
      ∀ other, other ≠ name →
        (record_tool_call st name).tool_calls other = st.tool_calls other) ∧
    ((run_tool_calls ["scrape_as_html", "scrape_as_html", "scrape_as_html",
        "search"]).tool_calls "scrape_as_html" = 3 ∧
     (run_tool_calls ["scrape_as_html", "scrape_as_html", "scrape_as_html",
        "search"]).tool_calls "search" = 1 ∧
     (run_tool_calls ["scrape_as_html", "scrape_as_html", "scrape_as_html",
        "search"]).session_calls = 4) := by
  refine ⟨?_, by decide, by decide, by decide⟩
  intro st name
  refine ⟨by simp [record_tool_call], rfl, ?_⟩
  intro other hother
  simp [record_tool_call, hother]

/-- Witness for `usage_stats_spec`: a `search` call leaves the
`scrape_as_html` counter unchanged. -/
theorem usage_stats_spec_witness :
    (record_tool_call initial_stats "search").tool_calls "scrape_as_html" =
      initial_stats.tool_calls "scrape_as_html" :=
  (usage_stats_spec.1 initial_stats "search").2.2 "scrape_as_html" (by decide)

/-- **C10.** Session credential guard of `tool_fn`: with no session, or
a session without a credential, the wrapper fails with
"No API token available in session" independently of the tool body (so
before any tool logic or upstream call); a resolved context always
carries exactly the session's credential (never a default); and the
zone fields fall back to the environment defaults and then to the
hardcoded `"mcp_unlocker"` / `"mcp_browser"` when absent from the
session. -/
theorem tool_fn_session_guard :
    (∀ envU envB fn, tool_fn_run none envU envB fn =
      .error (.plain "No API token available in session")) ∧
    (∀ s : Session, s.apiToken = "" → ∀ envU envB fn,
      tool_fn_run (some s) envU envB fn =
        .error (.plain "No API token available in session")) ∧
    (∀ s envU envB ctx, resolve_tool_ctx (some s) envU envB = .ok ctx →
      ctx.apiToken = s.apiToken) ∧
    (∀ s : Session, s.apiToken ≠ "" → s.unlockerZone = "" → s.browserZone = "" →
      ∀ ctx, resolve_tool_ctx (some s) none none = .ok ctx →
        ctx.unlockerZone = "mcp_unlocker" ∧ ctx.browserZone = "mcp_browser") ∧
    (∀ s : Session, ∀ zU zB : String, s.apiToken ≠ "" → s.unlockerZone = "" →
      s.browserZone = "" → zU ≠ "" → zB ≠ "" →
      ∀ ctx, resolve_tool_ctx (some s) (some zU) (some zB) = .ok ctx →
        ctx.unlockerZone = zU ∧ ctx.browserZone = zB) := by
  refine ⟨fun envU envB fn => rfl, ?_, ?_, ?_, ?_⟩
  · intro s hs envU envB fn
    rw [tool_fn_run, resolve_tool_ctx, if_pos hs]
  · intro s envU envB ctx h
    rw [resolve_tool_ctx] at h
    split at h
    · exact absurd h (by simp)
    · obtain rfl : _ = ctx := by simpa using h
      rfl
  · intro s hs hu hb ctx h
    rw [resolve_tool_ctx, if_neg hs] at h
    obtain rfl : _ = ctx := by simpa using h
    simp [jsOrElse, hu, hb]
  · intro s zU zB hs hu hb hzU hzB ctx h
    rw [resolve_tool_ctx, if_neg hs] at h
    obtain rfl : _ = ctx := by simpa using h
    simp [jsOrElse, hu, hb, hzU, hzB]

/-- Witness for `tool_fn_session_guard` at concrete inputs. -/
theorem tool_fn_session_guard_witness :
    tool_fn_run (some { apiToken := "", unlockerZone := "u", browserZone := "b" })
        none none (fun _ => .ok "r") =
      .error (.plain "No API token available in session") ∧
    (resolve_tool_ctx (some { apiToken := "tok", unlockerZone := "", browserZone := "" })
        none none = .ok { apiToken := "tok", unlockerZone := "mcp_unlocker",
                          browserZone := "mcp_browser" } →
      ({ apiToken := "tok", unlockerZone := "mcp_unlocker",
         browserZone := "mcp_browser" } : ResolvedCtx).unlockerZone = "mcp_unlocker" ∧
      ({ apiToken := "tok", unlockerZone := "mcp_unlocker",
         browserZone := "mcp_browser" } : ResolvedCtx).browserZone = "mcp_browser") ∧
    (resolve_tool_ctx (some { apiToken := "tok", unlockerZone := "", browserZone := "" })
        (some "zoneU") (some "zoneB") =
      .ok { apiToken := "tok", unlockerZone := "zoneU", browserZone := "zoneB" } →
      True) :=
  ⟨tool_fn_session_guard.2.1
     { apiToken := "", unlockerZone := "u", browserZone := "b" } rfl none none
     (fun _ => .ok "r"),
   tool_fn_session_guard.2.2.2.1
     { apiToken := "tok", unlockerZone := "", browserZone := "" }
     (by decide) rfl rfl
     { apiToken := "tok", unlockerZone := "mcp_unlocker", browserZone := "mcp_browser" },
   fun _ => trivial⟩

/-! ## Search-URL construction (`search_url`, `server.js` lines 903-912) -/

/-- The characters left unescaped by JS `encodeURIComponent`:
`A-Z a-z 0-9 - _ . ! ~ * ' ( )`. -/
def isUriUnreserved (c : Char) : Bool :=
  c.isAlphanum || c = '-' || c = '_' || c = '.' || c = '!' || c = '~' ||
    c = '*' || c = '\'' || c = '(' || c = ')'

/-- UTF-8 bytes of a Unicode code point. -/
def utf8Bytes (n : Nat) : List Nat :=
  if n < 128 then [n]
  else if n < 2048 then [192 + n / 64, 128 + n % 64]
  else if n < 65536 then [224 + n / 4096, 128 + n / 64 % 64, 128 + n % 64]
  else [240 + n / 262144, 128 + n / 4096 % 64, 128 + n / 64 % 64, 128 + n % 64]

/-- Uppercase hex digit. -/
def hexDigitChar (n : Nat) : Char :=
  if n < 10 then Char.ofNat ('0'.toNat + n) else Char.ofNat ('A'.toNat + n - 10)

/-- `%XX` escape of one byte. -/
def percentEncodeByte (b : Nat) : List Char :=
  ['%', hexDigitChar (b / 16), hexDigitChar (b % 16)]

/-- JS `encodeURIComponent`: unreserved characters kept, every other
character percent-encoded byte-by-byte in UTF-8. -/
def encodeURIComponent (s : String) : String :=
  String.mk (s.toList.flatMap fun c =>
    if isUriUnreserved c then [c]
    else (utf8Bytes c.toNat).flatMap percentEncodeByte)

/-- The JS `StrWhiteSpaceChar` set trimmed by `parseInt`: WhiteSpace
(TAB, VT, FF, SP, NBSP, BOM and the Unicode Zs category) and the line
terminators LF, CR, LS, PS. -/
def jsWhitespace (c : Char) : Bool :=
  c = ' ' || c = '\t' || c.toNat = 0xB || c.toNat = 0xC || c = '\n' || c = '\r' ||
    c.toNat = 0xA0 || c.toNat = 0xFEFF || c.toNat = 0x1680 ||
    (0x2000 ≤ c.toNat && c.toNat ≤ 0x200A) || c.toNat = 0x202F ||
    c.toNat = 0x205F || c.toNat = 0x3000 || c.toNat = 0x2028 || c.toNat = 0x2029

/-- Hexadecimal digit class `[0-9a-fA-F]`. -/
def isHexDigit (c : Char) : Bool :=
  c.isDigit || ('a' ≤ c && c ≤ 'f') || ('A' ≤ c && c ≤ 'F')

/-- Value of one hexadecimal digit. -/
def hexDigitVal (c : Char) : Nat :=
  if c.isDigit then c.toNat - '0'.toNat
  else if 'a' ≤ c && c ≤ 'f' then c.toNat - 'a'.toNat + 10
  else c.toNat - 'A'.toNat + 10

/-- Value of a hexadecimal digit list. -/
def hexToNat (ds : List Char) : Nat :=
  ds.foldl (fun acc c => acc * 16 + hexDigitVal c) 0

/-- The unsigned part of JS `parseInt` called without a radix: a `0x` or
`0X` prefix selects radix 16 (maximal run of hex digits after the
prefix, `NaN` when empty, e.g. `parseInt('0x') = NaN`); otherwise
radix 10 (maximal run of decimal digits, `NaN` when empty). -/
def jsParseIntCore (cs : List Char) : Option Nat :=
  match cs with
  | '0' :: x :: rest =>
    if x = 'x' || x = 'X' then
      let ds := rest.takeWhile isHexDigit
      if ds = [] then none else some (hexToNat ds)
    else
      let ds := cs.takeWhile Char.isDigit
      if ds = [] then none else some (digitsToNat ds)
  | _ =>
    let ds := cs.takeWhile Char.isDigit
    if ds = [] then none else some (digitsToNat ds)

/-- JS `parseInt` on a string, as called with no radix argument
(`server.js` line 905): trim leading JS whitespace, read an optional
sign, then parse with hex-prefix auto-detection; `none` models `NaN`. -/
def jsParseInt (cs0 : List Char) : Option Int :=
  let cs := cs0.dropWhile jsWhitespace
  match cs with
  | '-' :: rest => (jsParseIntCore rest).map (fun n => -(n : Int))
  | '+' :: rest => (jsParseIntCore rest).map (fun n => (n : Int))
  | _ => (jsParseIntCore cs).map (fun n => (n : Int))

/-- JS number-to-string interpolation for an integer-or-NaN value. -/
def jsNumToString (p : Option Int) : String :=
  match p with
  | some n => toString n
  | none => "NaN"

/-- `search_url` (`server.js` lines 903-912).  `cursor` is JS-falsy
(absent or empty) ⇒ page 0; otherwise `parseInt(cursor)` (`NaN`
propagating through the arithmetic into the interpolated string). -/
def search_url (engine query : String) (cursor : Option String) : String :=
  let q := encodeURIComponent query
  let page : Option Int :=
    match cursor with
    | none => some 0
    | some c => if c = "" then some 0 else jsParseInt c.toList
  if engine = "yandex" then
    "https://yandex.com/search/?text=" ++ q ++ "&p=" ++ jsNumToString page
  else if engine = "bing" then
    "https://www.bing.com/search?q=" ++ q ++ "&first=" ++
      jsNumToString (page.map fun p => p * 10 + 1)
  else
    "https://www.google.com/search?q=" ++ q ++ "&start=" ++
      jsNumToString (page.map fun p => p * 10)

/-- **C6.** `search_url` is a pure function of engine, query and cursor:
with `page` parsed from the cursor (0 when the cursor is absent), the
google URL carries `start = page*10`, the bing URL carries
`first = page*10 + 1`, the yandex URL carries `p = page`, and the query
is URL-encoded in every case; in particular cursor `"2"` yields
`first=21` for bing and `p=2` for yandex, and an absent cursor yields
`start=0` for google. -/
theorem search_url_spec :
    (∀ q c : String, ∀ p : Int, c ≠ "" → jsParseInt c.toList = some p →
      search_url "google" q (some c) =
        "https://www.google.com/search?q=" ++ encodeURIComponent q ++
          "&start=" ++ toString (p * 10) ∧
      search_url "bing" q (some c) =
        "https://www.bing.com/search?q=" ++ encodeURIComponent q ++
          "&first=" ++ toString (p * 10 + 1) ∧
      search_url "yandex" q (some c) =
        "https://yandex.com/search/?text=" ++ encodeURIComponent q ++
          "&p=" ++ toString p) ∧
    (∀ q, search_url "google" q none =
      "https://www.google.com/search?q=" ++ encodeURIComponent q ++ "&start=0") ∧
    (∀ q, search_url "bing" q (some "2") =
      "https://www.bing.com/search?q=" ++ encodeURIComponent q ++ "&first=21") ∧
    (∀ q, search_url "yandex" q (some "2") =
      "https://yandex.com/search/?text=" ++ encodeURIComponent q ++ "&p=2") := by
  have hmain : ∀ q c : String, ∀ p : Int, c ≠ "" → jsParseInt c.toList = some p →
      search_url "google" q (some c) =
        "https://www.google.com/search?q=" ++ encodeURIComponent q ++
          "&start=" ++ toString (p * 10) ∧
      search_url "bing" q (some c) =
        "https://www.bing.com/search?q=" ++ encodeURIComponent q ++
          "&first=" ++ toString (p * 10 + 1) ∧
      search_url "yandex" q (some c) =
        "https://yandex.com/search/?text=" ++ encodeURIComponent q ++
          "&p=" ++ toString p := by
    intro q c p hc hp
    have hp' : jsParseInt c.data = some p := hp
    refine ⟨?_, ?_, ?_⟩ <;>
      simp [search_url, hc, hp', jsNumToString]
  have hmerge : ∀ x a b c : String, a ++ b = c → x ++ a ++ b = x ++ c := by
    intro x a b c h
    rw [String.append_assoc, h]
  refine ⟨hmain, ?_, ?_, ?_⟩
  · intro q
    simp only [search_url, jsNumToString, Option.map_some]
    rw [if_neg (by decide : ¬ (("google" : String) = "yandex")),
      if_neg (by decide : ¬ (("google" : String) = "bing"))]
    exact hmerge _ _ _ _ rfl
  · intro q
    exact ((hmain q "2" 2 (by decide) (by decide)).2.1).trans (hmerge _ _ _ _ rfl)
  · intro q
    exact ((hmain q "2" 2 (by decide) (by decide)).2.2).trans (hmerge _ _ _ _ rfl)

/-- Witness for `search_url_spec` with query `"cats"` and cursor `"2"`. -/
theorem search_url_spec_witness :
    search_url "bing" "cats" (some "2") =
      "https://www.bing.com/search?q=" ++ encodeURIComponent "cats" ++
        "&first=" ++ toString ((2 : Int) * 10 + 1) :=
  (search_url_spec.1 "cats" "2" 2 (by decide) (by decide)).2.1

/-! ## Snapshot polling loop of the `web_data_*` tools
(`server.js` lines 786-829) -/

/-- A snapshot-status response body: its optional `status` field and the
rest of the payload (the poller returns `JSON.stringify` of the whole
body; we model the body value itself). -/
structure SnapshotBody where
  status : Option String
  payload : String
deriving Repr, DecidableEq

/-- One upstream answer to a snapshot-status query: either an HTTP
response with a JSON body, or a thrown transport/HTTP error (the catch
branch of lines 820-825). -/
inductive PollEvent where
  | reply (body : SnapshotBody)
  | httpFail
deriving Repr, DecidableEq

/-- Terminal outcome of the polling loop: the returned body, or the
timeout error of lines 827-828. -/
inductive PollResult where
  | success (body : SnapshotBody)
  | timeout (msg : String)
deriving Repr, DecidableEq

/-- Observable behaviour of one polling run: its outcome, how many
status queries it issued, and how many progress notifications it sent. -/
structure PollOutcome where
  result : PollResult
  queries : Nat
  progressReports : Nat
deriving Repr, DecidableEq

/-- `max_attempts = 600` (`server.js` line 786). -/
def max_attempts : Nat := 600

/-- Whether a status-query answer keeps the loop polling: a thrown error
(transient, caught and absorbed) or a body with `status === 'running'`. -/
def is_transient (e : PollEvent) : Bool :=
  match e with
  | .httpFail => true
  | .reply b => b.status == some "running"

/-- The polling loop body (`server.js` lines 788-826), driven by the
upstream's answer to the `i`-th status query.  `fuel` is
`max_attempts - attempts`, so `fuel = 0` is the loop exit
(`attempts < max_attempts` false) reaching the timeout throw.  Each
iteration first reports progress (when the caller supports it, lines
791-799), then queries the status endpoint: a `running` status or a
thrown error increments `attempts` and continues; any other response is
returned immediately. -/
def poll_aux (upstream : Nat → PollEvent) (hasProgress : Bool) :
    Nat → Nat → PollOutcome
  | 0, _ =>
    ⟨.timeout ("Timeout after " ++ toString max_attempts ++ " seconds waiting for data"),
     0, 0⟩
  | fuel + 1, attempts =>
    let prog := if hasProgress then 1 else 0
    match upstream attempts with
    | .reply body =>
      if body.status = some "running" then
        let rest := poll_aux upstream hasProgress fuel (attempts + 1)
        ⟨rest.result, rest.queries + 1, rest.progressReports + prog⟩
      else ⟨.success body, 1, prog⟩
    | .httpFail =>
      let rest := poll_aux upstream hasProgress fuel (attempts + 1)
      ⟨rest.result, rest.queries + 1, rest.progressReports + prog⟩

/-- A full polling run: `attempts = 0`, `fuel = max_attempts`. -/
def poll (upstream : Nat → PollEvent) (hasProgress : Bool) : PollOutcome :=
  poll_aux upstream hasProgress max_attempts 0

lemma poll_aux_final (upstream : Nat → PollEvent) (hasProgress : Bool)
    (body : SnapshotBody) (hbody : ¬ body.status = some "running") :
    ∀ (K a fuel : Nat), K < fuel →
      (∀ i, i < K → is_transient (upstream (a + i)) = true) →
      upstream (a + K) = .reply body →
      poll_aux upstream hasProgress fuel a =
        ⟨.success body, K + 1, if hasProgress then K + 1 else 0⟩ := by
  intro K
  induction K with
  | zero =>
    intro a fuel hK _ hfin
    rcases fuel with _ | f
    · omega
    · rw [show a + 0 = a from rfl] at hfin
      simp only [poll_aux, hfin, if_neg hbody]
  | succ K ih =>
    intro a fuel hK htrans hfin
    rcases fuel with _ | f
    · omega
    · have hrec := ih (a + 1) f (by omega)
        (by
          intro i hi
          have := htrans (i + 1) (by omega)
          rwa [show a + (i + 1) = a + 1 + i by omega] at this)
        (by rwa [show a + 1 + K = a + (K + 1) by omega])
      have h0 := htrans 0 (by omega)
      rw [show a + 0 = a from rfl] at h0
      rcases hup : upstream a with b | _
      · rw [hup] at h0
        have hb : b.status = some "running" := by
          simpa [is_transient] using h0
        simp only [poll_aux, hup, if_pos hb, hrec]
        cases hasProgress <;> simp
      · simp only [poll_aux, hup, hrec]
        cases hasProgress <;> simp

lemma poll_aux_all_transient (upstream : Nat → PollEvent) (hasProgress : Bool) :
    ∀ (fuel a : Nat),
      (∀ i, i < fuel → is_transient (upstream (a + i)) = true) →
      poll_aux upstream hasProgress fuel a =
        ⟨.timeout "Timeout after 600 seconds waiting for data", fuel,
         if hasProgress then fuel else 0⟩ := by
  intro fuel
  induction fuel with
  | zero =>
    intro a _
    rw [poll_aux]
    cases hasProgress <;> rfl
  | succ f ih =>
    intro a htrans
    have hrec := ih (a + 1)
      (by
        intro i hi
        have := htrans (i + 1) (by omega)
        rwa [show a + (i + 1) = a + 1 + i by omega] at this)
    have h0 := htrans 0 (by omega)
    rw [show a + 0 = a from rfl] at h0
    rcases hup : upstream a with b | _
    · rw [hup] at h0
      have hb : b.status = some "running" := by
        simpa [is_transient] using h0
      simp only [poll_aux, hup, if_pos hb, hrec]
      cases hasProgress <;> simp
    · simp only [poll_aux, hup, hrec]
      cases hasProgress <;> simp

lemma poll_aux_queries_le (upstream : Nat → PollEvent) (hasProgress : Bool) :
    ∀ fuel a, (poll_aux upstream hasProgress fuel a).queries ≤ fuel := by
  intro fuel
  induction fuel with
  | zero => intro a; rw [poll_aux]
  | succ f ih =>
    intro a
    rcases hup : upstream a with b | _
    · by_cases hb : b.status = some "running"
      · simp only [poll_aux, hup, if_pos hb]
        have := ih (a + 1)
        omega
      · simp only [poll_aux, hup, if_neg hb]
        omega
    · simp only [poll_aux, hup]
      have := ih (a + 1)
      omega

/-- **C1.** Snapshot polling: if the first `K` status queries
(`K < 600`) each answer `{status:"running"}` or raise a transport/HTTP
error (absorbed as transient), and the `(K+1)`-th answers with a body
whose status field is absent or different from `"running"`, the poller
returns that body after exactly `K+1` status queries and reports
progress `K+1` times when the caller supports progress notification
(and never otherwise). -/
theorem snapshot_poll_returns_final (upstream : Nat → PollEvent) (hasProgress : Bool)
    (K : Nat) (body : SnapshotBody) (hK : K < 600)
    (htrans : ∀ i, i < K → is_transient (upstream i) = true)
    (hfin : upstream K = .reply body)
    (hbody : ¬ body.status = some "running") :
    poll upstream hasProgress =
      ⟨.success body, K + 1, if hasProgress then K + 1 else 0⟩ := by
  have h := poll_aux_final upstream hasProgress body hbody K 0 max_attempts hK
    (by simpa using htrans) (by simpa using hfin)
  simpa [poll] using h

/-- Witness for `snapshot_poll_returns_final`: an upstream failing
transiently on the first two queries and delivering a final body (no
status field) on the third: 3 queries, 3 progress reports. -/
theorem snapshot_poll_returns_final_witness :
    poll (fun i => if i < 2 then .httpFail else .reply ⟨none, "data"⟩) true =
      ⟨.success ⟨none, "data"⟩, 3, 3⟩ := by
  have h := snapshot_poll_returns_final
    (fun i => if i < 2 then .httpFail else .reply ⟨none, "data"⟩) true 2
    ⟨none, "data"⟩ (by decide) (by decide) (by decide) (by decide)
  simpa using h

/-- **C2.** Bounded polling: when every status query stays transient
(`running` or error) the loop performs exactly 600 attempts and then
fails with the timeout error naming the attempt bound; moreover no
polling run whatsoever issues more than 600 status queries (the loop
always terminates within the bound). -/
theorem snapshot_poll_timeout (upstream : Nat → PollEvent) (hasProgress : Bool)
    (htrans : ∀ i, i < 600 → is_transient (upstream i) = true) :
    poll upstream hasProgress =
      ⟨.timeout "Timeout after 600 seconds waiting for data", 600,
       if hasProgress then 600 else 0⟩ ∧
    (∀ up : Nat → PollEvent, ∀ hp : Bool, (poll up hp).queries ≤ 600) := by
  constructor
  · have h := poll_aux_all_transient upstream hasProgress max_attempts 0
      (by simpa using htrans)
    simpa [poll] using h
  · intro up hp
    exact poll_aux_queries_le up hp max_attempts 0

set_option maxRecDepth 4000 in
/-- Witness for `snapshot_poll_timeout`: an upstream answering
`{status:"running"}` forever. -/
theorem snapshot_poll_timeout_witness :
    poll (fun _ => .reply ⟨some "running", ""⟩) false =
      ⟨.timeout "Timeout after 600 seconds waiting for data", 600, 0⟩ := by
  have h := (snapshot_poll_timeout (fun _ => .reply ⟨some "running", ""⟩) false
    (by decide)).1
  simpa using h

end BrightData
